import Mathlib

/-
Verification of the buildgo orchestration tool (src/tools/buildgo/main.go)
against its natural-language specification.

The Go code is shallowly embedded as follows.
- The filesystem visible through os.Stat is a list of entries, each giving
  a path, a modification time (an integer timestamp) and whether the path
  is a regular file.  The stat cache (fileInfoCache) is semantically
  transparent in a run with an unchanging filesystem, so stat results are
  read directly from the list.
- time.Now() is passed explicitly as an integer parameter named now.
- Go string helpers: strings.SplitN(s, sep, 2) is splitN2; a line that
  contains no separator yields no second component, so any Go access to
  parts[1] in that situation is an index-out-of-range panic, which the
  embedding surfaces as an explicit error value (Option none or a
  dedicated constructor).
- filepath.Join and filepath.Dir are modelled for the Windows separator,
  without path cleaning, which no claim depends on.
- Functions that mutate the global caches (createdDirs, cachedExePaths)
  take the cache as an explicit argument and return the updated cache
  together with a description of their effect.
- fatalf / os.Exit and goroutine launches are modelled as effect values:
  an ExecLookup constructor for the locator, a BuildAction list for the
  invocation layer.
-/

namespace BuildGo

/-- Entry of the modelled filesystem: a path together with its
modification time and whether it is a regular file. -/
structure FSEntry where
  path : String
  mtime : Int
  isReg : Bool
deriving DecidableEq

/-- Result of os.Stat on the modelled filesystem: the first entry whose
path matches, none when stat fails (file missing). -/
def statFS (fs : List FSEntry) (p : String) : Option FSEntry :=
  fs.find? (fun e => e.path = p)

/-- Embeds fileExists: stat succeeds and the mode is a regular file. -/
def fileExists (fs : List FSEntry) (p : String) : Bool :=
  match statFS fs p with
  | some e => e.isReg
  | none => false

/-- Embeds getModTime: the modification time of the path, or the supplied
default when stat fails. -/
def getModTime (fs : List FSEntry) (p : String) (d : Int) : Int :=
  match statFS fs p with
  | some e => e.mtime
  | none => d

/-- Embeds isOutdated.  The callers of getModTime inside the Go function
pass time.Now() as the default, which the embedding receives as now.
srcTime.Sub(dstTime) > 0 becomes srcTime - dstTime > 0, and the early
return inside the dependency loop becomes List.any. -/
def isOutdated (alwaysRebuild : Bool) (fs : List FSEntry) (now : Int)
    (src dst : String) (deps : List String) : Bool :=
  if alwaysRebuild then true
  else if !fileExists fs dst then true
  else
    let dstTime := getModTime fs dst now
    let srcTime := getModTime fs src now
    if srcTime - dstTime > 0 then true
    else if deps.any (fun p => srcTime - getModTime fs p now > 0) then true
    else false

/-- Filesystem for the C1 failing input: source older than destination,
one dependency strictly newer than the source. -/
def fsDepNewer : List FSEntry :=
  [⟨"src.c", 10, true⟩, ⟨"dst.obj", 20, true⟩, ⟨"dep.h", 30, true⟩]

/-- Filesystem for the C2 failing input: destination strictly newer than
both the source and the single dependency, but the dependency older than
the source. -/
def fsDepOlder : List FSEntry :=
  [⟨"src.c", 10, true⟩, ⟨"dst.obj", 20, true⟩, ⟨"dep.h", 5, true⟩]

/-- C1: the claim says that with force-rebuild off, destination existing
and not older than the source, a dependency strictly newer than the
source forces isOutdated to return true.  The code compares in the other
direction (srcTime - depTime > 0), so on the concrete input where the
dependency (mtime 30) is strictly newer than the source (mtime 10) and
the destination (mtime 20) is newer than the source, isOutdated returns
false, contradicting the claim and the doc comment of isOutdated. -/
theorem isOutdated_ignores_newer_dep :
    isOutdated false fsDepNewer 100 "src.c" "dst.obj" ["dep.h"] = false := by
  decide

/-- C2: the claim says that a destination newer than both the source and
every dependency yields isOutdated = false.  On the concrete input where
the destination (mtime 20) is strictly newer than the source (mtime 10)
and the dependency (mtime 5), the reversed dependency comparison
srcTime - depTime > 0 fires (10 - 5 > 0) and isOutdated returns true,
contradicting the claim and the doc comment of isOutdated. -/
theorem isOutdated_rebuilds_on_older_dep :
    isOutdated false fsDepOlder 100 "src.c" "dst.obj" ["dep.h"] = true := by
  decide

/-- Filesystem for the C3 counterexample: only the destination exists;
the source is missing. -/
def fsNoSrc : List FSEntry :=
  [⟨"dst.obj", 20, true⟩]

/-- C3 counterexample: the claim says a missing source never makes an
existing destination stale.  With the source missing, getModTime falls
back to time.Now(), so the source is treated as maximally new: on a
filesystem holding only the destination (mtime 20) with now = 100,
isOutdated returns true. -/
theorem isOutdated_missing_src_makes_stale :
    isOutdated false fsNoSrc 100 "src.c" "dst.obj" [] = true := by
  decide

/-- C3 amended: a missing path is given the current time (time.Now())
as its modification time, so it is treated as maximally new, not
infinitely old.  Part 1: a missing source makes an existing destination
stale whenever the current time is strictly newer than the destination
time.  Part 2: a missing dependency never triggers a rebuild as long as
the effective source time is not after the current time: deleting such
a dependency from the list never changes the decision. -/
theorem isOutdated_missing_files_treated_as_now :
    (∀ fs now src dst deps, statFS fs src = none → fileExists fs dst = true →
        now - getModTime fs dst now > 0 →
        isOutdated false fs now src dst deps = true)
    ∧ (∀ aR fs now src dst deps1 deps2 p, statFS fs p = none →
        getModTime fs src now ≤ now →
        isOutdated aR fs now src dst (deps1 ++ p :: deps2)
          = isOutdated aR fs now src dst (deps1 ++ deps2)) := by
  constructor
  · intro fs now src dst deps h1 h2 h3
    have hsrc : getModTime fs src now = now := by
      simp [getModTime, h1]
    simp [isOutdated, h2, hsrc, h3]
  · intro aR fs now src dst deps1 deps2 p h1 h2
    have hp : getModTime fs p now = now := by
      simp [getModTime, h1]
    have hcmp : (getModTime fs src now - getModTime fs p now > 0) = False := by
      simp only [hp, eq_iff_iff, iff_false, not_lt]
      omega
    simp only [isOutdated, List.any_append, List.any_cons]
    simp [hcmp]

/-- C3 amended, witness: part 1 applied to the concrete missing-source
filesystem, part 2 applied to a concrete filesystem where the dependency
is missing. -/
theorem isOutdated_missing_files_treated_as_now_witness :
    isOutdated false fsNoSrc 100 "src.c" "dst.obj" ["dep.h"] = true
    ∧ isOutdated false fsDepOlder 100 "src.c" "dst.obj" (["dep.h"] ++ "gone.h" :: [])
        = isOutdated false fsDepOlder 100 "src.c" "dst.obj" (["dep.h"] ++ []) :=
  ⟨isOutdated_missing_files_treated_as_now.1 fsNoSrc 100 "src.c" "dst.obj" ["dep.h"]
      (by decide) (by decide) (by decide),
   isOutdated_missing_files_treated_as_now.2 false fsDepOlder 100 "src.c" "dst.obj"
      ["dep.h"] [] "gone.h" (by decide) (by decide)⟩

/-- Splits a character list at the first occurrence of sep: the prefix
before it and, when sep occurs, the remainder after it. -/
def splitFirst (sep : Char) : List Char → List Char × Option (List Char)
  | [] => ([], none)
  | c :: rest =>
    if c = sep then ([], some rest)
    else
      let r := splitFirst sep rest
      (c :: r.1, r.2)

/-- Embeds strings.SplitN(s, sep, 2) for a one-character separator (the
only case the program uses): the part before the first separator, and
the rest after it when the separator occurs.  When the separator does
not occur the Go slice has length 1, so the second component is none and
any Go access to parts[1] panics. -/
def splitN2 (s : String) (sep : Char) : String × Option String :=
  let r := splitFirst sep s.toList
  (String.mk r.1, r.2.map String.mk)

/-- Splits a character list at every occurrence of sep.  The result is
never empty, matching strings.Split for a non-empty separator. -/
def splitAll (sep : Char) : List Char → List (List Char)
  | [] => [[]]
  | c :: rest =>
    let r := splitAll sep rest
    if c = sep then [] :: r
    else
      match r with
      | [] => [[c]]
      | h :: t => (c :: h) :: t

/-- Embeds strings.Split(s, sep) for a one-character separator. -/
def splitOnChar (s : String) (sep : Char) : List String :=
  (splitAll sep s.toList).map String.mk

/-- Embeds strings.ToUpper for the ASCII names the program handles. -/
def toUpperStr (s : String) : String :=
  String.mk (s.toList.map Char.toUpper)

/-- Embeds strings.ToLower for the ASCII names the program handles. -/
def toLowerStr (s : String) : String :=
  String.mk (s.toList.map Char.toLower)

/-- Embeds the EnvVar struct: original-case name and value. -/
structure EnvVar where
  name : String
  val : String
deriving DecidableEq

/-- Go map assignment m[k] = v on an association list: replace the
binding when the key is present, otherwise append it. -/
def mapInsert (m : List (String × EnvVar)) (k : String) (v : EnvVar) :
    List (String × EnvVar) :=
  match m with
  | [] => [(k, v)]
  | (k0, v0) :: rest =>
    if k0 = k then (k, v) :: rest else (k0, v0) :: mapInsert rest k v

/-- Loop body of envToMap over the list of lines, carrying the map built
so far.  Empty lines are skipped.  On a non-empty line the Go code runs
parts := strings.SplitN(v, "=", 2), tests len(parts) != 2 with an EMPTY
if-body, and then reads parts[0] and parts[1] unconditionally; when the
line has no "=" the read of parts[1] is an index-out-of-range panic,
surfaced here as none. -/
def envToMapLoop : List String → List (String × EnvVar) →
    Option (List (String × EnvVar))
  | [], acc => some acc
  | v :: rest, acc =>
    if v.length = 0 then envToMapLoop rest acc
    else
      match splitN2 v '=' with
      | (_, none) => none
      | (name, some val) =>
        envToMapLoop rest (mapInsert acc (toUpperStr name) ⟨name, val⟩)

/-- Embeds envToMap: builds the map keyed by the uppercased name; none
models the runtime panic on a non-empty line without "=". -/
def envToMap (env : List String) : Option (List (String × EnvVar)) :=
  envToMapLoop env []

/-- C10: the claim says envToMap is total, returning a mapping for every
input, including a non-empty line without any "=".  The guard
len(parts) != 2 has an empty body, so on the input list with the single
line FOO the code reads parts[1] out of range and panics; the embedding
returns none (panic) instead of a mapping.  On the well-formed part of
the input language the function does behave as claimed, as the second
conjunct illustrates. -/
theorem envToMap_panics_on_line_without_separator :
    envToMap ["FOO"] = none
    ∧ envToMap ["", "Path=C:\\bin", "x=1"]
        = some [("PATH", ⟨"Path", "C:\\bin"⟩), ("X", ⟨"x", "1"⟩)] := by
  constructor
  · rfl
  · rfl

/-- Embeds createDirCached, with the global createdDirs set passed
explicitly.  The result is the set after the call together with whether
os.MkdirAll was invoked.  The Go function returns early when dir is in
the set, otherwise calls os.MkdirAll, and on NO path inserts dir into
createdDirs, so the returned set is always the input set. -/
def createDirCached (createdDirs : List String) (dir : String) :
    List String × Bool :=
  if dir ∈ createdDirs then (createdDirs, false)
  else (createdDirs, true)

/-- C8: the claim says that once a directory has been ensured it is
recorded in the set, so a later ensure performs no further creation
call.  The code never writes to createdDirs: starting from the empty
set, the first call performs a creation and leaves the set empty, and
the second call for the same directory performs a creation again. -/
theorem createDirCached_never_records :
    (createDirCached [] "rel").2 = true
    ∧ (createDirCached [] "rel").1 = []
    ∧ (createDirCached (createDirCached [] "rel").1 "rel").2 = true := by
  decide

/-- Embeds filepath.Join(dir, name) for the Windows separator, without
path cleaning (no claim depends on cleaning). -/
def joinPath (d f : String) : String :=
  if d = "" then f else d ++ "\\" ++ f

/-- Outcome of lookupInEnvPathUncached: a found path, the fatalf call
(process abort), the final return of the empty string when no
environment entry names the search path, or the index-out-of-range
panic on a search-path entry without "=". -/
inductive ExecLookup where
  | found (path : String)
  | fatalError
  | emptyResult
  | panicked
deriving DecidableEq

/-- Inner loop of lookupInEnvPathUncached over the directories of the
value of the search-path variable: the first directory whose join with
the executable name exists as a regular file wins; fatalf otherwise. -/
def scanPathDirs (exeName : String) (fs : List FSEntry) (val : String) :
    ExecLookup :=
  match (splitOnChar val ';').find? (fun dir => fileExists fs (joinPath dir exeName)) with
  | some dir => ExecLookup.found (joinPath dir exeName)
  | none => ExecLookup.fatalError

/-- Embeds lookupInEnvPathUncached: walk the environment entries, skip
every entry whose name does not lowercase to "path", and on the first
matching entry scan its value; falling off the loop returns "". -/
def lookupInEnvPathUncached (exeName : String) (fs : List FSEntry) :
    List String → ExecLookup
  | [] => ExecLookup.emptyResult
  | envVar :: rest =>
    if toLowerStr (splitN2 envVar '=').1 ≠ "path" then
      lookupInEnvPathUncached exeName fs rest
    else
      match (splitN2 envVar '=').2 with
      | none => ExecLookup.panicked
      | some val => scanPathDirs exeName fs val

/-- Embeds lookupInEnvPath, with the global cachedExePaths map passed
explicitly.  The result is the cache after the call, the returned path
and whether the uncached scan ran; none models the two non-returning
outcomes of the scan (fatalf and panic), after which no caller
continues. -/
def lookupInEnvPath (cache : List (String × String)) (exeName : String)
    (env : List String) (fs : List FSEntry) :
    Option (List (String × String) × String × Bool) :=
  match cache.find? (fun kv => kv.1 = exeName) with
  | some kv => some (cache, kv.2, false)
  | none =>
    match lookupInEnvPathUncached exeName fs env with
    | ExecLookup.found p => some ((exeName, p) :: cache, p, true)
    | ExecLookup.emptyResult => some ((exeName, "") :: cache, "", true)
    | ExecLookup.fatalError => none
    | ExecLookup.panicked => none

/-- C5 counterexample: the claim says lookup fails fatally when the
search-path variable is absent from the environment.  On an environment
holding only FOO=bar the loop finds no entry named path, falls through
and returns the empty string: the outcome is emptyResult, not the
fatalError outcome the claim requires. -/
theorem lookup_absent_path_not_fatal :
    lookupInEnvPathUncached "cl.exe" [] ["FOO=bar"] = ExecLookup.emptyResult
    ∧ ExecLookup.emptyResult ≠ ExecLookup.fatalError := by
  constructor
  · rfl
  · decide

/-- C5 amended: the scan matches the variable name case-insensitively,
splits its value on the path separator and returns the first candidate
that exists as a regular file; it fails fatally when the variable is
present but holds no existing candidate, while an environment without
the variable yields the empty-string return, not a fatal failure.
Part 1: no entry named path gives emptyResult.  Part 2: the first entry
named path (case-insensitively) decides the outcome via its value.
Part 3: no existing candidate in that value is fatal.  Part 4: the
first existing candidate is returned. -/
theorem lookupInEnvPathUncached_scan_rules :
    (∀ exe fs env, (∀ v ∈ env, toLowerStr (splitN2 v '=').1 ≠ "path") →
        lookupInEnvPathUncached exe fs env = ExecLookup.emptyResult)
    ∧ (∀ exe fs pre e post name val,
        (∀ v ∈ pre, toLowerStr (splitN2 v '=').1 ≠ "path") →
        splitN2 e '=' = (name, some val) →
        toLowerStr name = "path" →
        lookupInEnvPathUncached exe fs (pre ++ e :: post) = scanPathDirs exe fs val)
    ∧ (∀ exe fs val,
        (∀ d ∈ splitOnChar val ';', fileExists fs (joinPath d exe) = false) →
        scanPathDirs exe fs val = ExecLookup.fatalError)
    ∧ (∀ exe fs val d,
        (splitOnChar val ';').find? (fun dir => fileExists fs (joinPath dir exe))
          = some d →
        scanPathDirs exe fs val = ExecLookup.found (joinPath d exe)) := by
  refine ⟨?_, ?_, ?_, ?_⟩
  · intro exe fs env h
    induction env with
    | nil => rfl
    | cons v rest ih =>
      have hv := h v (by simp)
      rw [lookupInEnvPathUncached, if_pos hv]
      exact ih (fun w hw => h w (by simp [hw]))
  · intro exe fs pre e post name val hpre he hname
    induction pre with
    | nil =>
      simp only [List.nil_append]
      rw [lookupInEnvPathUncached, he]
      simp [hname]
    | cons v rest ih =>
      have hv := hpre v (by simp)
      simp only [List.cons_append]
      rw [lookupInEnvPathUncached, if_pos hv]
      exact ih (fun w hw => hpre w (by simp [hw]))
  · intro exe fs val h
    rw [scanPathDirs, List.find?_eq_none.mpr]
    intro d hd
    simp [h d hd]
  · intro exe fs val d h
    rw [scanPathDirs, h]

/-- Filesystem for the locator witnesses: a single compiler binary. -/
def fsTools : List FSEntry :=
  [⟨"C:\\tools\\cl.exe", 0, true⟩]

/-- C5 amended, witness: the four parts applied to concrete
environments over the fsTools filesystem. -/
theorem lookupInEnvPathUncached_scan_rules_witness :
    lookupInEnvPathUncached "cl.exe" fsTools ["FOO=bar"] = ExecLookup.emptyResult
    ∧ lookupInEnvPathUncached "cl.exe" fsTools
        (["FOO=bar"] ++ "Path=C:\\bin;C:\\tools" :: ["X=1"])
        = scanPathDirs "cl.exe" fsTools "C:\\bin;C:\\tools"
    ∧ scanPathDirs "cl.exe" [] "C:\\bin;C:\\tools" = ExecLookup.fatalError
    ∧ scanPathDirs "cl.exe" fsTools "C:\\bin;C:\\tools"
        = ExecLookup.found (joinPath "C:\\tools" "cl.exe") :=
  ⟨lookupInEnvPathUncached_scan_rules.1 "cl.exe" fsTools ["FOO=bar"] (by decide),
   lookupInEnvPathUncached_scan_rules.2.1 "cl.exe" fsTools ["FOO=bar"]
     "Path=C:\\bin;C:\\tools" ["X=1"] "Path" "C:\\bin;C:\\tools"
     (by decide) (by rfl) (by decide),
   lookupInEnvPathUncached_scan_rules.2.2.1 "cl.exe" [] "C:\\bin;C:\\tools"
     (by decide),
   lookupInEnvPathUncached_scan_rules.2.2.2 "cl.exe" fsTools "C:\\bin;C:\\tools"
     "C:\\tools" (by rfl)⟩

/-- C9: executable resolution is idempotent.  Whenever a call to
lookupInEnvPath returns (with cache c1, path p1 and any scan flag), an
immediately repeated call for the same name under the same environment
is answered from the cache: it returns the same path, leaves the cache
unchanged and does not run the uncached scan again. -/
theorem lookupInEnvPath_idempotent :
    ∀ cache exe env fs c1 p1 b1,
      lookupInEnvPath cache exe env fs = some (c1, p1, b1) →
      lookupInEnvPath c1 exe env fs = some (c1, p1, false) := by
  intro cache exe env fs c1 p1 b1 h
  unfold lookupInEnvPath at h ⊢
  cases hfind : cache.find? (fun kv => kv.1 = exe) with
  | some kv =>
    rw [hfind] at h
    simp only [Option.some.injEq, Prod.mk.injEq] at h
    obtain ⟨h1, h2, h3⟩ := h
    rw [← h1, hfind]
    show some (cache, kv.2, false) = some (cache, p1, false)
    rw [h2]
  | none =>
    rw [hfind] at h
    cases hun : lookupInEnvPathUncached exe fs env with
    | found p =>
      rw [hun] at h
      simp only [Option.some.injEq, Prod.mk.injEq] at h
      obtain ⟨h1, h2, h3⟩ := h
      rw [← h1, ← h2]
      simp [List.find?]
    | fatalError => rw [hun] at h; simp at h
    | emptyResult =>
      rw [hun] at h
      simp only [Option.some.injEq, Prod.mk.injEq] at h
      obtain ⟨h1, h2, h3⟩ := h
      rw [← h1, ← h2]
      simp [List.find?]
    | panicked => rw [hun] at h; simp at h

/-- C9 witness: after resolving cl.exe once from the empty cache over a
concrete environment, the repeated resolution is a cache hit returning
the same path with no scan. -/
theorem lookupInEnvPath_idempotent_witness :
    lookupInEnvPath [("cl.exe", "C:\\tools\\cl.exe")] "cl.exe"
        ["Path=C:\\bin;C:\\tools"] fsTools
      = some ([("cl.exe", "C:\\tools\\cl.exe")], "C:\\tools\\cl.exe", false) :=
  lookupInEnvPath_idempotent [] "cl.exe" ["Path=C:\\bin;C:\\tools"] fsTools
    [("cl.exe", "C:\\tools\\cl.exe")] "C:\\tools\\cl.exe" true (by rfl)

/-- Joins path components with the Windows separator. -/
def joinSep : List String → String
  | [] => ""
  | [a] => a
  | a :: rest => a ++ "\\" ++ joinSep rest

/-- Embeds filepath.Dir for the Windows separator, without cleaning:
everything before the last separator, or the current directory when the
path has no separator. -/
def dirOf (p : String) : String :=
  match (splitOnChar p '\\').dropLast with
  | [] => "."
  | parts => joinSep parts

/-- Embeds strConcat: concatenation of two string slices. -/
def strConcat (arr1 arr2 : List String) : List String :=
  arr1 ++ arr2

/-- Embeds Args.Append: a fresh argument list holding the receiver
followed by the appended slice. -/
def argsAppend (a toAppend : List String) : List String :=
  strConcat a toAppend

/-- Observable effect of the invocation layer: a directory creation
(os.MkdirAll via createDirForFileCached) or the submission of an
external process run (runExe) with its argument list. -/
inductive BuildAction where
  | mkdir (dir : String)
  | run (exe : String) (args : List String)
deriving DecidableEq

/-- Embeds rc: ensure the parent directory of dst, append the two
synthetic arguments to the caller flags and submit rc.exe.  The
filesystem and clock are passed as rc receives access to them in the
program, but the function never consults them: there is no freshness
check. -/
def rc (fs : List FSEntry) (now : Int) (src dst : String)
    (args : List String) : List BuildAction :=
  [BuildAction.mkdir (dirOf dst),
   BuildAction.run "rc.exe" (argsAppend args ["/Fo" ++ dst, src])]

/-- Embeds cl: return immediately when isOutdated(src, dst, nil) is
false, otherwise ensure the parent directory of dst, append the two
synthetic arguments and submit cl.exe. -/
def cl (alwaysRebuild : Bool) (fs : List FSEntry) (now : Int)
    (src dst : String) (args : List String) : List BuildAction :=
  if !isOutdated alwaysRebuild fs now src dst [] then []
  else
    [BuildAction.mkdir (dirOf dst),
     BuildAction.run "cl.exe" (argsAppend args ["/Fo" ++ dst, src])]

/-- C6: ordinary compilation consults the Freshness Oracle and performs
no work when the destination is up to date, while resource compilation
bypasses the check.  Part 1: when isOutdated is false, cl produces no
action at all.  Part 2: the actions of rc do not depend on the
filesystem or the clock.  Part 3: rc always submits its run task. -/
theorem cl_consults_oracle_rc_bypasses :
    (∀ fs now src dst args, isOutdated false fs now src dst [] = false →
        cl false fs now src dst args = [])
    ∧ (∀ fs1 fs2 now1 now2 src dst args,
        rc fs1 now1 src dst args = rc fs2 now2 src dst args)
    ∧ (∀ fs now src dst args,
        BuildAction.run "rc.exe" (argsAppend args ["/Fo" ++ dst, src])
          ∈ rc fs now src dst args) := by
  refine ⟨?_, ?_, ?_⟩
  · intro fs now src dst args h
    simp [cl, h]
  · intro fs1 fs2 now1 now2 src dst args
    rfl
  · intro fs now src dst args
    simp [rc]

/-- C6 witness: on a filesystem where the destination is fresh, cl does
nothing; rc gives the same actions over that filesystem and the empty
one, and its run task is among them. -/
theorem cl_consults_oracle_rc_bypasses_witness :
    cl false fsDepNewer 100 "src.c" "dst.obj" ["/c"] = []
    ∧ rc fsDepNewer 100 "a.rc" "out\\a.res" ["/r"]
        = rc [] 0 "a.rc" "out\\a.res" ["/r"]
    ∧ BuildAction.run "rc.exe" (argsAppend ["/r"] ["/Fo" ++ "out\\a.res", "a.rc"])
        ∈ rc fsDepNewer 100 "a.rc" "out\\a.res" ["/r"] :=
  ⟨cl_consults_oracle_rc_bypasses.1 fsDepNewer 100 "src.c" "dst.obj" ["/c"]
      (by decide),
   cl_consults_oracle_rc_bypasses.2.1 fsDepNewer [] 100 0 "a.rc" "out\\a.res" ["/r"],
   cl_consults_oracle_rc_bypasses.2.2 fsDepNewer 100 "a.rc" "out\\a.res" ["/r"]⟩

/-- C7 counterexample: the claim says the argument vector starts with
the output-path argument, followed by the caller flags, with the source
last.  On the concrete rc invocation with the single caller flag /r the
produced vector is the caller flag first, then /Fo, then the source, so
the action list differs from the one the claim predicts. -/
theorem invocation_arg_order_cex :
    rc [] 0 "a.rc" "out\\a.res" ["/r"]
      ≠ [BuildAction.mkdir "out",
         BuildAction.run "rc.exe" ["/Foout\\a.res", "/r", "a.rc"]] := by
  decide

/-- C7 amended: the argument vector handed to the external process
holds the caller-supplied flags first, then the output-path argument
/Fo followed directly by the source path as the last argument; this is
the vector both rc and cl (when the destination is outdated) hand to
runExe. -/
theorem invocation_arg_order :
    ∀ fs now src dst args,
      rc fs now src dst args
        = [BuildAction.mkdir (dirOf dst),
           BuildAction.run "rc.exe" (args ++ ["/Fo" ++ dst, src])]
      ∧ (isOutdated false fs now src dst [] = true →
          cl false fs now src dst args
            = [BuildAction.mkdir (dirOf dst),
               BuildAction.run "cl.exe" (args ++ ["/Fo" ++ dst, src])])
      ∧ (args ++ ["/Fo" ++ dst, src]).getLast? = some src := by
  intro fs now src dst args
  refine ⟨rfl, ?_, ?_⟩
  · intro h
    simp [cl, h, argsAppend, strConcat]
  · rw [show args ++ ["/Fo" ++ dst, src] = (args ++ ["/Fo" ++ dst]) ++ [src] by simp]
    exact List.getLast?_concat _

/-- C7 amended, witness: the three parts at a concrete invocation where
the destination is missing, hence outdated. -/
theorem invocation_arg_order_witness :
    rc [] 0 "a.rc" "out\\a.res" ["/r"]
      = [BuildAction.mkdir (dirOf "out\\a.res"),
         BuildAction.run "rc.exe" (["/r"] ++ ["/Fo" ++ "out\\a.res", "a.rc"])]
    ∧ cl false [] 0 "a.cpp" "out\\a.obj" ["/c"]
        = [BuildAction.mkdir (dirOf "out\\a.obj"),
           BuildAction.run "cl.exe" (["/c"] ++ ["/Fo" ++ "out\\a.obj", "a.cpp"])]
    ∧ (["/r"] ++ ["/Fo" ++ "out\\a.res", "a.rc"]).getLast? = some "a.rc" :=
  ⟨(invocation_arg_order [] 0 "a.rc" "out\\a.res" ["/r"]).1,
   (invocation_arg_order [] 0 "a.cpp" "out\\a.obj" ["/c"]).2.1 (by decide),
   (invocation_arg_order [] 0 "a.rc" "out\\a.res" ["/r"]).2.2⟩

end BuildGo
